import Mathlib

/-!
Shallow embedding of `src/logger.rs` (starknet-id/deploy).

The Rust module implements a `Logger` that
- opens a fresh `deployment_<n>.txt` file with the lowest unused number,
- mirrors messages to that file, stripped of ANSI escape sequences,
- keeps a bounded (`REMOTE_TERM_SIZE = 5`) scroll buffer of recent lines,
- repaints the terminal in place after each buffer push, and
- runs an event loop over remote stdout lines, remote stderr lines and
  key events, stopping on the Escape key.

Files are modelled as the list of lines written so far plus a watermark
`flushed` counting how many of those lines were followed by a flush.
Terminal output is modelled as a trace of crossterm-style commands.
-/

/-! ## Line sanitizer: `ANSI_ESCAPE_CODE.replace_all(text, "")`

The regex in the source is `"\x1B\[[0-9;]*[a-zA-Z]"`.  `replace_all`
removes every non-overlapping leftmost match.  Because the classes
`[0-9;]` and `[a-zA-Z]` are disjoint, a match at a position is found by
taking the maximal run of `[0-9;]` after `ESC [` and requiring the next
character to be an ASCII letter. -/

def escChar : Char := '\x1B'

/-- Membership in the regex class `[0-9;]`. -/
def isParamChar (c : Char) : Bool :=
  decide (48 ≤ c.toNat ∧ c.toNat ≤ 57) || decide (c.toNat = 59)

/-- Membership in the regex class `[a-zA-Z]`. -/
def isLetterChar (c : Char) : Bool :=
  decide (97 ≤ c.toNat ∧ c.toNat ≤ 122) || decide (65 ≤ c.toNat ∧ c.toNat ≤ 90)

/-- After `ESC [`, consume the (maximal) run of `[0-9;]` characters and
then one ASCII letter; return the remainder of the line on success. -/
def consumeParams : List Char → Option (List Char)
  | [] => none
  | c :: rest =>
    if isParamChar c then consumeParams rest
    else if isLetterChar c then some rest
    else none

/-- Try to match the regex `ESC \[ [0-9;]* [a-zA-Z]` at the head of the
line; return the suffix after the match on success. -/
def matchEscape : List Char → Option (List Char)
  | c₁ :: c₂ :: rest =>
    if c₁ = escChar then if c₂ = '[' then consumeParams rest else none
    else none
  | _ => none

/-- Fuelled scanner for `replace_all`: at each position, remove a match
if one starts there, otherwise keep the character and move on.  The fuel
is always instantiated with the length of the line, which suffices
because every match consumes at least one character. -/
def sanitizeFuel : Nat → List Char → List Char
  | _, [] => []
  | 0, l => l
  | fuel + 1, c :: cs =>
    match matchEscape (c :: cs) with
    | some rest => sanitizeFuel fuel rest
    | none => c :: sanitizeFuel fuel cs

/-- `ANSI_ESCAPE_CODE.replace_all(l, "")` on a line given as a character
list. -/
def sanitize (l : List Char) : List Char :=
  sanitizeFuel l.length l

/-- `ANSI_ESCAPE_CODE.replace_all(s, "")` on a string. -/
def sanitizeStr (s : String) : String :=
  String.mk (sanitize s.data)

/-- `true` when some position of the line starts a match of the regex. -/
def containsEscapeSeq : List Char → Bool
  | [] => false
  | c :: cs => (matchEscape (c :: cs)).isSome || containsEscapeSeq cs

/-- Lines that are a concatenation of complete ANSI escape sequences
(`ESC [ params letter`), i.e. lines consisting only of escape codes. -/
inductive OnlyEscapes : List Char → Prop
  | nil : OnlyEscapes []
  | cons (params : List Char) (a : Char) (rest : List Char) :
      (∀ c ∈ params, isParamChar c = true) → isLetterChar a = true →
      OnlyEscapes rest →
      OnlyEscapes (escChar :: '[' :: (params ++ a :: rest))

/-! ## Data model

`FileState` models the append-only log file: `lines` is the sequence of
lines written so far (`writeln!` appends one line), `flushed` is how
many of them were already followed by a `flush()`.  `Logger` mirrors the
Rust struct: the shared file handle and the `VecDeque<String>` scroll
buffer (front of the list = front of the deque = oldest line). -/

/-- `pub const REMOTE_TERM_SIZE: usize = 5;` -/
def REMOTE_TERM_SIZE : Nat := 5

/-- `u16::MAX`: the largest value `usize::try_into::<u16>()` accepts. -/
def U16_MAX : Nat := 65535

/-- `buffer.len().try_into().unwrap()` — the `unwrap` panics (modelled as
`none`) exactly when the length does not fit in a `u16`. -/
def tryIntoU16 (n : Nat) : Option Nat :=
  if n ≤ U16_MAX then some n else none

/-- The log file: lines written so far and how many of them have been
flushed to disk. -/
structure FileState where
  lines : List String
  flushed : Nat
deriving DecidableEq

/-- `log_file.flush()`: all written lines are now on disk. -/
def flushFile (f : FileState) : FileState :=
  ⟨f.lines, f.lines.length⟩

/-- `writeln!(log_file, "{}", message)`: append one line, without
flushing. -/
def writeFile (f : FileState) (message : String) : FileState :=
  ⟨f.lines ++ [message], f.flushed⟩

/-- The `Logger` struct: the append-only log file and the
`VecDeque<String>` remote scroll buffer (head = oldest entry). -/
structure Logger where
  log_file : FileState
  remote_buffer : List String
deriving DecidableEq

/-- The pop-then-push pattern shared by `update_console` and
`add_uploaded_file`: if the buffer already holds `REMOTE_TERM_SIZE`
lines, `pop_front()` the oldest, then `push_back` the new line. -/
def pushLine (buf : List String) (line : String) : List String :=
  (if buf.length = REMOTE_TERM_SIZE then buf.tail else buf) ++ [line]

/-! ## Terminal command trace

Each crossterm `execute`/`print` call is recorded as one command. -/

inductive TermColor where
  | darkGrey : TermColor
  | green : TermColor
  | reset : TermColor
deriving DecidableEq

inductive TermCmd where
  | moveUp : Nat → TermCmd
  | clearCurrentLine : TermCmd
  | moveToColumn : Nat → TermCmd
  | print : String → TermCmd
  | setForegroundColor : TermColor → TermCmd
deriving DecidableEq

/-- Emit `f line` for every buffer line, in order (the
`for line in buffer.iter()` loops). -/
def renderLines (f : String → List TermCmd) : List String → List TermCmd
  | [] => []
  | line :: rest => f line ++ renderLines f rest

/-- Per-line commands of `update_console`'s render loop: clear the row,
print the dark-grey `$ ` prompt, the raw line, a newline, then move to
column 0. -/
def updateLineCmds (line : String) : List TermCmd :=
  [TermCmd.clearCurrentLine, TermCmd.setForegroundColor TermColor.darkGrey,
   TermCmd.print "$ ", TermCmd.setForegroundColor TermColor.reset,
   TermCmd.print line, TermCmd.print "\n", TermCmd.moveToColumn 0]

/-- The trailing status row `update_console` draws after the buffer:
clear it, print the `Remote console: Press ESC to quit` prompt, newline,
column 0. -/
def statusPromptCmds : List TermCmd :=
  [TermCmd.clearCurrentLine, TermCmd.setForegroundColor TermColor.darkGrey,
   TermCmd.print "Remote console: ", TermCmd.setForegroundColor TermColor.reset,
   TermCmd.print "Press ESC to quit", TermCmd.print "\n", TermCmd.moveToColumn 0]

/-- `fn update_console(buffer, new_line)`: record the previous length
(`try_into::<u16>().unwrap()`, `none` on panic), pop-push the raw line,
then repaint: move up `prev + 1` rows, redraw every buffer line, redraw
the status row.  The log file is not touched. -/
def update_console (buf : List String) (new_line : String) :
    Option (List String × List TermCmd) :=
  match tryIntoU16 buf.length with
  | none => none
  | some prev =>
    let buf' := pushLine buf new_line
    some (buf',
      TermCmd.moveUp (prev + 1) :: (renderLines updateLineCmds buf' ++ statusPromptCmds))

/-! ## Logger methods -/

/-- Stderr message of `eprintln!("Failed to write to log file: {}", e)`. -/
def writeFailMsg (e : String) : String := "Failed to write to log file: " ++ e

/-- Stderr message of `eprintln!("Failed to flush log file: {}", e)`. -/
def flushFailMsg (e : String) : String := "Failed to flush log file: " ++ e

/-- `Logger::log_to_file`: try to `writeln!` the message, then try to
`flush`; each failing step prints a diagnostic to stderr (second
component) and the method returns normally either way.  `writeErr` and
`flushErr` inject the possible I/O errors of the two calls. -/
def log_to_file (f : FileState) (message : String)
    (writeErr flushErr : Option String) : FileState × List String :=
  let step1 : FileState × List String :=
    match writeErr with
    | none => (writeFile f message, [])
    | some e => (f, [writeFailMsg e])
  let step2 : FileState × List String :=
    match flushErr with
    | none => (flushFile step1.1, [])
    | some e => (step1.1, [flushFailMsg e])
  (step2.1, step1.2 ++ step2.2)

/-- `Logger::log` (success path): print the raw message to stdout (not
traced here) and persist the sanitized message via `log_to_file`. -/
def Logger.log (logger : Logger) (message : String) : Logger :=
  ⟨(log_to_file logger.log_file (sanitizeStr message) none none).1,
   logger.remote_buffer⟩

/-- `"✔".bright_green()` as produced by the `colored` crate. -/
def brightGreen (s : String) : String := "\x1B[92m" ++ s ++ "\x1B[0m"

/-- `file_name.bright_black()` as produced by the `colored` crate. -/
def brightBlack (s : String) : String := "\x1B[90m" ++ s ++ "\x1B[0m"

/-- The decorated line `format!("{} \x27{}\x27", "✔".bright_green(), file_name.bright_black())`
pushed into the scroll buffer by `add_uploaded_file`. -/
def uploadDisplayLine (file_name : String) : String :=
  brightGreen "✔" ++ " \x27" ++ brightBlack file_name ++ "\x27"

/-- The plain line `format!("✔ \x27{}\x27", file_name)` written to the log
file by `add_uploaded_file` ("saving without colors"). -/
def uploadLogLine (file_name : String) : String :=
  "✔ \x27" ++ file_name ++ "\x27"

/-- Per-line commands of `add_uploaded_file`'s render loop: clear the
row, move to column 0, `println!` the stored line. -/
def uploadLineCmds (line : String) : List TermCmd :=
  [TermCmd.clearCurrentLine, TermCmd.moveToColumn 0, TermCmd.print (line ++ "\n")]

/-- `Logger::add_uploaded_file` (write succeeding): record the previous
buffer length (`none` if the `try_into::<u16>().unwrap()` panics),
pop-push the decorated line, append the plain line to the log file
without flushing, then repaint: move up `prev + 1` rows, redraw every
buffer line, clear one trailing row and return to column 0. -/
def add_uploaded_file (logger : Logger) (file_name : String) :
    Option (Logger × List TermCmd) :=
  match tryIntoU16 logger.remote_buffer.length with
  | none => none
  | some prev =>
    let buffer := pushLine logger.remote_buffer (uploadDisplayLine file_name)
    let file := writeFile logger.log_file (uploadLogLine file_name)
    some (⟨file, buffer⟩,
      TermCmd.moveUp (prev + 1) ::
        (renderLines uploadLineCmds buffer ++
          [TermCmd.clearCurrentLine, TermCmd.moveToColumn 0]))

/-- `Logger::stop_files_display`: replace the scroll buffer by a fresh
empty one and flush the (same) log file. -/
def stop_files_display (logger : Logger) : Logger :=
  ⟨flushFile logger.log_file, []⟩

/-! ## Remote-logging event loop -/

/-- A key event: the designated Escape key, or any other key. -/
inductive Key where
  | esc : Key
  | other : Char → Key
deriving DecidableEq

/-- One event the `tokio::select!` loop can wake up on. -/
inductive LoopEvent where
  | key : Key → LoopEvent
  | stdoutLine : String → LoopEvent
  | stderrLine : String → LoopEvent
deriving DecidableEq

/-- The final status line printed when Escape is seen: move up one row,
clear it, print green `Remote console: ` then `finished`, newline,
column 0. -/
def finishedCmds : List TermCmd :=
  [TermCmd.moveUp 1, TermCmd.clearCurrentLine,
   TermCmd.setForegroundColor TermColor.green, TermCmd.print "Remote console: ",
   TermCmd.setForegroundColor TermColor.reset, TermCmd.print "finished\n",
   TermCmd.moveToColumn 0]

/-- The `loop { tokio::select! { ... } }` body, run over a list of
arrived events: Escape prints the finished line and breaks (`true`);
any other key is consumed with no effect; a remote stdout/stderr line
goes through `update_console` (propagating its panic as `none`).  If the
event list is exhausted the loop is still running (`false`). -/
def runLoop : List String → List TermCmd → List LoopEvent →
    Option (List String × List TermCmd × Bool)
  | buf, cmds, [] => some (buf, cmds, false)
  | buf, cmds, LoopEvent.key Key.esc :: _ => some (buf, cmds ++ finishedCmds, true)
  | buf, cmds, LoopEvent.key (Key.other _) :: rest => runLoop buf cmds rest
  | buf, cmds, LoopEvent.stdoutLine s :: rest =>
    match update_console buf s with
    | none => none
    | some (buf', c) => runLoop buf' (cmds ++ c) rest
  | buf, cmds, LoopEvent.stderrLine s :: rest =>
    match update_console buf s with
    | none => none
    | some (buf', c) => runLoop buf' (cmds ++ c) rest

/-- Result of `start_remote_logging`: the logger afterwards, whether the
terminal is still in raw mode, the emitted terminal trace, and whether
the loop has stopped. -/
structure RemoteRun where
  state : Logger
  rawMode : Bool
  cmds : List TermCmd
  stopped : Bool
deriving DecidableEq

/-- `Logger::start_remote_logging`: enable raw mode, run the select
loop; once it breaks (Escape), disable raw mode, flush the log file and
replace the scroll buffer by a fresh empty one.  If the given events do
not stop the loop, it is still running in raw mode with nothing
flushed or cleared. -/
def start_remote_logging (logger : Logger) (events : List LoopEvent) :
    Option RemoteRun :=
  match runLoop logger.remote_buffer [] events with
  | none => none
  | some (buf, cmds, stopped) =>
    if stopped then some ⟨⟨flushFile logger.log_file, []⟩, false, cmds, true⟩
    else some ⟨⟨logger.log_file, buf⟩, true, cmds, false⟩

/-! ## Log-file naming (`Logger::new`)

`Logger::new` scans `num = 1, 2, ...` for the first `num` such that
`deployment_<num>.txt` does not exist.  We model the directory by the
list of numbers `n` for which `deployment_<n>.txt` exists.  The scan is
given `taken.length + 1` fuel, which always suffices (pigeonhole). -/

def firstFreeAux (taken : List Nat) : Nat → Nat → Nat
  | 0, num => num
  | fuel + 1, num => if num ∈ taken then firstFreeAux taken fuel (num + 1) else num

/-- The number `num` with which `Logger::new` creates
`deployment_<num>.txt`, given the set of existing deployment numbers. -/
def firstFree (taken : List Nat) : Nat :=
  firstFreeAux taken (taken.length + 1) 1

/-! ## Claim-support definitions -/

/-- Modelled from the spec: the repaint sequence claimed in the spec,
per buffer line — clear the current row, move to column 0, print the
line. -/
def claimedLineCmds (line : String) : List TermCmd :=
  [TermCmd.clearCurrentLine, TermCmd.moveToColumn 0, TermCmd.print (line ++ "\n")]

/-- Modelled from the spec: the full repaint command sequence the spec
claims for each repaint — move the cursor up by `prev_len + 1` rows;
for each buffer line in order clear the row, move to column 0 and print
the line; then clear one trailing row and return to column 0. -/
def claimedRepaint (prevLen : Nat) (buf : List String) : List TermCmd :=
  TermCmd.moveUp (prevLen + 1) ::
    (renderLines claimedLineCmds buf ++ [TermCmd.clearCurrentLine, TermCmd.moveToColumn 0])

/-- A concrete remote session over a fresh logger: one stdout line
`"hello"` arrives, then Escape is pressed. -/
def c1Res : RemoteRun :=
  (start_remote_logging ⟨⟨[], 0⟩, []⟩
      [LoopEvent.stdoutLine "hello", LoopEvent.key Key.esc]).getD
    ⟨⟨⟨[], 0⟩, []⟩, true, [], false⟩

/-- Line count and flush watermark of the log file right after
`add_uploaded_file` on a fresh logger. -/
def c2FlushState : Option (Nat × Nat) :=
  (add_uploaded_file ⟨⟨[], 0⟩, []⟩ "file").map
    (fun r => (r.1.log_file.lines.length, r.1.log_file.flushed))

/-- Result of `add_uploaded_file` on a fresh logger. -/
def c2AddRes : Logger × List TermCmd :=
  (add_uploaded_file ⟨⟨[], 0⟩, []⟩ "file").getD (⟨⟨[], 0⟩, []⟩, [])

/-- Terminal trace of `update_console` pushing `"a"` into an empty
buffer. -/
def c7UpdateCmds : Option (List TermCmd) :=
  (update_console [] "a").map Prod.snd

/-- Result of `add_uploaded_file "f"` on a fresh logger. -/
def c7AddRes : Logger × List TermCmd :=
  (add_uploaded_file ⟨⟨[], 0⟩, []⟩ "f").getD (⟨⟨[], 0⟩, []⟩, [])


/-! ### Basic lemmas about the sanitizer -/

lemma letter_not_param (c : Char) (h : isLetterChar c = true) :
    isParamChar c = false := by
  simp only [isLetterChar, isParamChar, Bool.or_eq_true, decide_eq_true_eq] at h
  simp only [isParamChar, Bool.or_eq_false_iff, decide_eq_false_iff_not]
  omega

lemma consumeParams_length : ∀ (l r : List Char), consumeParams l = some r → r.length < l.length := by
  intro l
  induction l with
  | nil => intro r h; simp [consumeParams] at h
  | cons c cs ih =>
    intro r h
    by_cases hp : isParamChar c = true
    · rw [consumeParams, if_pos hp] at h
      exact Nat.lt_succ_of_lt (ih r h)
    · by_cases hl : isLetterChar c = true
      · rw [consumeParams, if_neg hp, if_pos hl] at h
        cases h
        exact Nat.lt_succ_self _
      · rw [consumeParams, if_neg hp, if_neg hl] at h
        exact absurd h (by simp)

lemma matchEscape_length : ∀ (l r : List Char), matchEscape l = some r → r.length < l.length := by
  intro l r h
  match l with
  | [] => simp [matchEscape] at h
  | [c] => simp [matchEscape] at h
  | c₁ :: c₂ :: rest =>
    rw [matchEscape] at h
    by_cases h₁ : c₁ = escChar
    · rw [if_pos h₁] at h
      by_cases h₂ : c₂ = '['
      · rw [if_pos h₂] at h
        have := consumeParams_length rest r h
        simp only [List.length_cons]
        omega
      · rw [if_neg h₂] at h; exact absurd h (by simp)
    · rw [if_neg h₁] at h; exact absurd h (by simp)

lemma sanitizeFuel_congr : ∀ (f g : Nat) (l : List Char), l.length ≤ f → l.length ≤ g →
    sanitizeFuel f l = sanitizeFuel g l := by
  intro f
  induction f with
  | zero =>
    intro g l hf _
    have : l = [] := List.eq_nil_of_length_eq_zero (Nat.le_zero.mp hf)
    subst this
    cases g <;> rfl
  | succ f ih =>
    intro g l hf hg
    cases l with
    | nil => cases g <;> rfl
    | cons c cs =>
      cases g with
      | zero => simp at hg
      | succ g' =>
        rw [sanitizeFuel, sanitizeFuel]
        cases hm : matchEscape (c :: cs) with
        | some rest =>
          have hr := matchEscape_length _ _ hm
          simp only [List.length_cons] at hr hf hg
          exact ih g' rest (by omega) (by omega)
        | none =>
          simp only [List.length_cons] at hf hg
          rw [ih g' cs (by omega) (by omega)]

lemma sanitize_match {l rest : List Char} (h : matchEscape l = some rest) :
    sanitize l = sanitize rest := by
  match l with
  | [] => simp [matchEscape] at h
  | c :: cs =>
    have hr := matchEscape_length _ _ h
    simp only [List.length_cons] at hr
    show sanitizeFuel (c :: cs).length (c :: cs) = _
    rw [List.length_cons, sanitizeFuel, h]
    exact sanitizeFuel_congr cs.length rest.length rest (by omega) (Nat.le_refl _)

lemma sanitize_nomatch {c : Char} {cs : List Char} (h : matchEscape (c :: cs) = none) :
    sanitize (c :: cs) = c :: sanitize cs := by
  show sanitizeFuel (c :: cs).length (c :: cs) = _
  rw [List.length_cons, sanitizeFuel, h]
  rfl

lemma sanitize_of_not_contains : ∀ l : List Char, containsEscapeSeq l = false → sanitize l = l := by
  intro l
  induction l with
  | nil => intro _; rfl
  | cons c cs ih =>
    intro h
    rw [containsEscapeSeq, Bool.or_eq_false_iff] at h
    have hm : matchEscape (c :: cs) = none := by
      cases hm : matchEscape (c :: cs) with
      | none => rfl
      | some r => rw [hm] at h; simp at h
    rw [sanitize_nomatch hm, ih h.2]

lemma consumeParams_concat : ∀ (params : List Char) (a : Char) (rest : List Char),
    (∀ c ∈ params, isParamChar c = true) → isLetterChar a = true →
    consumeParams (params ++ a :: rest) = some rest := by
  intro params
  induction params with
  | nil =>
    intro a rest _ ha
    rw [List.nil_append, consumeParams, if_neg (by simp [letter_not_param a ha]), if_pos ha]
  | cons c ps ih =>
    intro a rest hall ha
    have hc : isParamChar c = true := hall c (by simp)
    rw [List.cons_append, consumeParams, if_pos hc]
    exact ih a rest (fun d hd => hall d (by simp [hd])) ha

lemma onlyEscapes_sanitize : ∀ l : List Char, OnlyEscapes l → sanitize l = [] := by
  intro l h
  induction h with
  | nil => rfl
  | cons params a rest hp ha _ ih =>
    have hm : matchEscape (escChar :: '[' :: (params ++ a :: rest)) = some rest := by
      rw [matchEscape, if_pos rfl, if_pos rfl, consumeParams_concat params a rest hp ha]
    rw [sanitize_match hm, ih]

/-! ## Scroll-buffer characterization -/

lemma pushLine_foldl : ∀ l : List String,
    List.foldl pushLine [] l = l.drop (l.length - REMOTE_TERM_SIZE) := by
  intro l
  have hR : REMOTE_TERM_SIZE = 5 := rfl
  induction l using List.reverseRecOn with
  | nil => rfl
  | append_singleton l x ih =>
    rw [List.foldl_append, List.foldl_cons, List.foldl_nil, ih]
    rcases Nat.lt_or_ge l.length REMOTE_TERM_SIZE with hlt | hge
    · have h0 : l.length - REMOTE_TERM_SIZE = 0 := by omega
      have h1 : (l ++ [x]).length - REMOTE_TERM_SIZE = 0 := by
        simp only [List.length_append, List.length_singleton]
        unfold REMOTE_TERM_SIZE at hlt ⊢
        omega
      rw [h0, List.drop_zero, h1, List.drop_zero, pushLine,
        if_neg (by omega)]
    · have hlen : (l.drop (l.length - REMOTE_TERM_SIZE)).length = REMOTE_TERM_SIZE := by
        rw [List.length_drop]
        omega
      rw [pushLine, if_pos hlen, List.tail_drop]
      have h2 : (l ++ [x]).length - REMOTE_TERM_SIZE = l.length - REMOTE_TERM_SIZE + 1 := by
        simp only [List.length_append, List.length_singleton]
        omega
      rw [h2, List.drop_append_of_le_length (by omega)]

/-! ## `Logger::new` numbering -/

lemma firstFreeAux_spec (taken : List Nat) :
    ∀ (fuel num : Nat), (∃ k, k < fuel ∧ (num + k) ∉ taken) →
      firstFreeAux taken fuel num ∉ taken ∧
      num ≤ firstFreeAux taken fuel num ∧
      ∀ m, num ≤ m → m < firstFreeAux taken fuel num → m ∈ taken := by
  intro fuel
  induction fuel with
  | zero =>
    intro num h
    rcases h with ⟨k, hk, _⟩
    omega
  | succ fuel ih =>
    intro num h
    by_cases hmem : num ∈ taken
    · have h' : ∃ k, k < fuel ∧ (num + 1 + k) ∉ taken := by
        rcases h with ⟨k, hk, hnk⟩
        cases k with
        | zero => exact absurd hmem hnk
        | succ k' =>
          refine ⟨k', by omega, ?_⟩
          rw [show num + 1 + k' = num + (k' + 1) by omega]
          exact hnk
      have hres := ih (num + 1) h'
      rw [firstFreeAux, if_pos hmem]
      refine ⟨hres.1, by omega, ?_⟩
      intro m hm1 hm2
      rcases Nat.eq_or_lt_of_le hm1 with heq | hlt
      · rw [← heq]; exact hmem
      · exact hres.2.2 m (by omega) hm2
    · rw [firstFreeAux, if_neg hmem]
      exact ⟨hmem, Nat.le_refl _, fun m hm1 hm2 => absurd (Nat.lt_of_le_of_lt hm1 hm2) (Nat.lt_irrefl _)⟩

lemma exists_free_slot (taken : List Nat) :
    ∃ k, k < taken.length + 1 ∧ (1 + k) ∉ taken := by
  by_contra hcon
  push_neg at hcon
  have hsub : (Finset.range (taken.length + 1)).image (fun k => 1 + k) ⊆ taken.toFinset := by
    intro a ha
    rcases Finset.mem_image.mp ha with ⟨k, hk, hka⟩
    rw [← hka]
    exact List.mem_toFinset.mpr (hcon k (Finset.mem_range.mp hk))
  have hcard := Finset.card_le_card hsub
  rw [Finset.card_image_of_injective _ (fun a b hab => by omega), Finset.card_range] at hcard
  have := List.toFinset_card_le taken
  omega

/-! ## Claim theorems -/

/-- C3: starting from the empty buffer, any sequence of pushes leaves
the scroll buffer equal to the last `min(REMOTE_TERM_SIZE, total)`
pushed values in arrival order (here: the suffix obtained by dropping
all but the last `REMOTE_TERM_SIZE`), its length never exceeding
`REMOTE_TERM_SIZE`. -/
theorem C3_buffer_bounded_suffix : ∀ pushes : List String,
    List.foldl pushLine [] pushes
        = pushes.drop (pushes.length - REMOTE_TERM_SIZE)
    ∧ (List.foldl pushLine [] pushes).length
        = min REMOTE_TERM_SIZE pushes.length
    ∧ (List.foldl pushLine [] pushes).length ≤ REMOTE_TERM_SIZE := by
  intro pushes
  have hR : REMOTE_TERM_SIZE = 5 := rfl
  refine ⟨pushLine_foldl pushes, ?_, ?_⟩ <;>
    rw [pushLine_foldl pushes, List.length_drop] <;> omega

/-- C4 counterexample: the sanitizer is not idempotent — on the line
`ESC ESC [ m [ 0 m`, one pass leaves `ESC [ 0 m` (a fresh escape
sequence assembled by the removal), and a second pass removes it. -/
theorem C4_counterexample :
    sanitizeStr (sanitizeStr "\x1B\x1B[m[0m") ≠ sanitizeStr "\x1B\x1B[m[0m" := by
  decide

/-- C4 amended: a line with no escape-sequence match is unchanged by the
sanitizer, and a line that is a concatenation of escape sequences
sanitizes to the empty line; but the sanitizer is not idempotent on all
strings. -/
theorem C4_sanitizer_properties :
    (∀ l : List Char, containsEscapeSeq l = false → sanitize l = l)
    ∧ (∀ l : List Char, OnlyEscapes l → sanitize l = [])
    ∧ ¬ (∀ s : String, sanitizeStr (sanitizeStr s) = sanitizeStr s) := by
  refine ⟨sanitize_of_not_contains, onlyEscapes_sanitize, fun hall => ?_⟩
  exact absurd (hall "\x1B\x1B[m[0m") (by decide)

theorem C4_sanitizer_properties_witness :
    sanitize (String.data "hello") = String.data "hello"
    ∧ sanitize [escChar, '[', '0', 'm'] = [] :=
  ⟨C4_sanitizer_properties.1 (String.data "hello") (by decide),
   C4_sanitizer_properties.2.1 [escChar, '[', '0', 'm']
     (OnlyEscapes.cons ['0'] 'm' [] (by decide) (by decide) OnlyEscapes.nil)⟩

/-- C5: `Logger::new` picks the smallest positive `n` whose
`deployment_<n>.txt` does not exist: the result is free, positive, and
every smaller positive number is taken; with files 1 and 2 present it
picks 3, and with file 2 deleted (1 and 3 present) it picks 2. -/
theorem C5_lowest_unused_number :
    (∀ taken : List Nat,
        firstFree taken ∉ taken ∧ 1 ≤ firstFree taken ∧
        ∀ m, 1 ≤ m → m < firstFree taken → m ∈ taken)
    ∧ firstFree [1, 2] = 3 ∧ firstFree [1, 3] = 2 := by
  refine ⟨fun taken => ?_, by decide, by decide⟩
  exact firstFreeAux_spec taken (taken.length + 1) 1 (exists_free_slot taken)

theorem C5_lowest_unused_number_witness : (2 : Nat) ∈ ([1, 2, 4] : List Nat) :=
  (C5_lowest_unused_number.1 [1, 2, 4]).2.2 2 (by decide) (by decide)

/-- C8: whether the write, the flush, both or neither fail,
`log_to_file` reports each failure on stderr and returns normally with
a well-defined file state (a failing write loses only that line; a
failing flush leaves the write unflushed; nothing aborts the caller). -/
theorem C8_log_errors_nonfatal : ∀ (f : FileState) (message e e' : String),
    log_to_file f message (some e) none = (flushFile f, [writeFailMsg e])
    ∧ log_to_file f message none (some e') = (writeFile f message, [flushFailMsg e'])
    ∧ log_to_file f message (some e) (some e') = (f, [writeFailMsg e, flushFailMsg e'])
    ∧ log_to_file f message none none = (flushFile (writeFile f message), []) := by
  intro f message e e'
  exact ⟨rfl, rfl, rfl, rfl⟩

/-- C9: under the buffer-length invariant (length at most
`REMOTE_TERM_SIZE`), the `len().try_into::<u16>().unwrap()` conversions
in `update_console` and `add_uploaded_file` succeed, so neither
operation panics. -/
theorem C9_try_into_total : ∀ (logger : Logger) (name : String)
    (buf : List String) (line : String),
    logger.remote_buffer.length ≤ REMOTE_TERM_SIZE →
    buf.length ≤ REMOTE_TERM_SIZE →
    tryIntoU16 buf.length = some buf.length
    ∧ (update_console buf line).isSome = true
    ∧ tryIntoU16 logger.remote_buffer.length = some logger.remote_buffer.length
    ∧ (add_uploaded_file logger name).isSome = true := by
  intro logger name buf line h1 h2
  have hU : REMOTE_TERM_SIZE ≤ U16_MAX := by decide
  have e1 : tryIntoU16 buf.length = some buf.length := by
    rw [tryIntoU16, if_pos (by omega)]
  have e2 : tryIntoU16 logger.remote_buffer.length = some logger.remote_buffer.length := by
    rw [tryIntoU16, if_pos (by omega)]
  refine ⟨e1, ?_, e2, ?_⟩
  · rw [update_console, e1]; rfl
  · rw [add_uploaded_file, e2]; rfl

theorem C9_try_into_total_witness : (update_console ["a"] "b").isSome = true :=
  (C9_try_into_total ⟨⟨[], 0⟩, []⟩ "f" ["a"] "b" (by decide) (by decide)).2.1

/-- C10: `stop_files_display` keeps the log file's contents intact (no
truncation, only a flush), resets the scroll buffer to empty, and the
same file keeps receiving appended lines from subsequent operations
(here: a following `Logger::log`). -/
theorem C10_stop_display_frame : ∀ (logger : Logger) (message : String),
    (stop_files_display logger).log_file.lines = logger.log_file.lines
    ∧ (stop_files_display logger).log_file.flushed = logger.log_file.lines.length
    ∧ (stop_files_display logger).remote_buffer = []
    ∧ (Logger.log (stop_files_display logger) message).log_file.lines
        = logger.log_file.lines ++ [sanitizeStr message] := by
  intro logger message
  exact ⟨rfl, rfl, rfl, rfl⟩

/-- C1 counterexample: a fresh logger handles the remote line `"hello"`
(it is pushed and rendered — the trace contains its repaint) and the
loop then stops, yet the log file is left completely empty: the
remote-line path never writes to the log file. -/
theorem C1_counterexample :
    start_remote_logging ⟨⟨[], 0⟩, []⟩
        [LoopEvent.stdoutLine "hello", LoopEvent.key Key.esc]
      = some ⟨⟨⟨[], 0⟩, []⟩, false,
          (TermCmd.moveUp 1 :: (renderLines updateLineCmds ["hello"] ++ statusPromptCmds))
            ++ finishedCmds,
          true⟩ := by
  decide

/-- C1 amended: a remote line handled by `update_console` is pushed
into the scroll buffer and repainted, but it is never written to the
log file — a whole `start_remote_logging` run leaves the file's lines
exactly as they were (only a flush happens at loop end). -/
theorem C1_remote_lines_not_persisted :
    (∀ (logger : Logger) (events : List LoopEvent) (r : RemoteRun),
        start_remote_logging logger events = some r →
          r.state.log_file.lines = logger.log_file.lines)
    ∧ (∀ (buf : List String) (line : String) (r : List String × List TermCmd),
        update_console buf line = some r → r.1 = pushLine buf line) := by
  constructor
  · intro logger events r h
    rw [start_remote_logging] at h
    cases hrl : runLoop logger.remote_buffer [] events with
    | none => rw [hrl] at h; simp at h
    | some res =>
      rw [hrl] at h
      obtain ⟨buf, cmds, stopped⟩ := res
      cases stopped with
      | false =>
        have h' : some (⟨⟨logger.log_file, buf⟩, true, cmds, false⟩ : RemoteRun)
            = some r := h
        rw [← Option.some.inj h']
      | true =>
        have h' : some (⟨⟨flushFile logger.log_file, []⟩, false, cmds, true⟩ : RemoteRun)
            = some r := h
        rw [← Option.some.inj h']
        rfl
  · intro buf line r h
    rw [update_console] at h
    cases ht : tryIntoU16 buf.length with
    | none => rw [ht] at h; simp at h
    | some prev =>
      rw [ht] at h
      rw [← Option.some.inj h]

theorem C1_remote_lines_not_persisted_witness : c1Res.state.log_file.lines = [] :=
  C1_remote_lines_not_persisted.1 ⟨⟨[], 0⟩, []⟩
    [LoopEvent.stdoutLine "hello", LoopEvent.key Key.esc] c1Res (by decide)

/-- C2 counterexample: after `add_uploaded_file` on a fresh logger the
log file holds one written line but its flush watermark is still 0 —
the write is not followed by a flush before the operation returns. -/
theorem C2_counterexample : c2FlushState = some (1, 0) := by
  decide

/-- C2 amended: `log_to_file` (hence `Logger::log`) does flush right
after its write, but `add_uploaded_file` appends its line to the log
file without flushing, leaving the flush watermark untouched; the
remote-line path writes nothing at all (see C1). -/
theorem C2_flush_only_in_log_to_file :
    (∀ (f : FileState) (message : String),
        (log_to_file f message none none).1.flushed
          = (log_to_file f message none none).1.lines.length)
    ∧ (∀ (logger : Logger) (name : String) (r : Logger × List TermCmd),
        add_uploaded_file logger name = some r →
          r.1.log_file.lines = logger.log_file.lines ++ [uploadLogLine name]
          ∧ r.1.log_file.flushed = logger.log_file.flushed) := by
  constructor
  · intro f message
    rfl
  · intro logger name r h
    rw [add_uploaded_file] at h
    cases ht : tryIntoU16 logger.remote_buffer.length with
    | none => rw [ht] at h; simp at h
    | some prev =>
      rw [ht] at h
      rw [← Option.some.inj h]
      exact ⟨rfl, rfl⟩

theorem C2_flush_only_in_log_to_file_witness :
    c2AddRes.1.log_file.lines = [] ++ [uploadLogLine "file"]
    ∧ c2AddRes.1.log_file.flushed = 0 :=
  C2_flush_only_in_log_to_file.2 ⟨⟨[], 0⟩, []⟩ "file" c2AddRes (by decide)

/-- C6: an Escape key event makes the loop print the `finished` status
line, stop, leave raw mode, flush the log file and clear the scroll
buffer, ignoring any later events; any other key event is consumed with
no observable effect and the loop continues. -/
theorem C6_escape_stops_loop :
    (∀ (logger : Logger) (rest : List LoopEvent),
        start_remote_logging logger (LoopEvent.key Key.esc :: rest)
          = some ⟨⟨flushFile logger.log_file, []⟩, false, finishedCmds, true⟩)
    ∧ (∀ (logger : Logger) (c : Char) (rest : List LoopEvent),
        start_remote_logging logger (LoopEvent.key (Key.other c) :: rest)
          = start_remote_logging logger rest) := by
  constructor
  · intro logger rest
    simp [start_remote_logging, runLoop]
  · intro logger c rest
    rfl

/-- C7 counterexample: the repaint of `update_console` (push `"a"` into
an empty buffer) is not the command sequence the claim describes — each
line is drawn with a colored `$ ` prefix and the column move comes after
the print, and the trailing row receives the `Press ESC to quit` status
prompt rather than being left blank. -/
theorem C7_counterexample : c7UpdateCmds ≠ some (claimedRepaint 0 ["a"]) := by
  decide

/-- C7 amended: `add_uploaded_file` emits exactly the claimed repaint
sequence (up `prev+1`, per line: clear/column-0/print, then clear one
trailing row and return to column 0), while `update_console` emits: up
`prev+1`; per line clear, print the colored `$ ` prefix, the line and a
newline, then move to column 0; then redraw the status prompt row. -/
theorem C7_repaint_sequences :
    (∀ (logger : Logger) (name : String) (r : Logger × List TermCmd),
        add_uploaded_file logger name = some r →
          r.2 = claimedRepaint logger.remote_buffer.length r.1.remote_buffer)
    ∧ (∀ (buf : List String) (line : String) (r : List String × List TermCmd),
        update_console buf line = some r →
          r.2 = TermCmd.moveUp (buf.length + 1) ::
              (renderLines updateLineCmds r.1 ++ statusPromptCmds)) := by
  constructor
  · intro logger name r h
    rw [add_uploaded_file] at h
    cases ht : tryIntoU16 logger.remote_buffer.length with
    | none => rw [ht] at h; simp at h
    | some prev =>
      have hprev : prev = logger.remote_buffer.length := by
        rw [tryIntoU16] at ht
        by_cases hc : logger.remote_buffer.length ≤ U16_MAX
        · rw [if_pos hc] at ht; exact (Option.some.inj ht).symm
        · rw [if_neg hc] at ht; simp at ht
      rw [ht] at h
      rw [← Option.some.inj h, hprev]
      rfl
  · intro buf line r h
    rw [update_console] at h
    cases ht : tryIntoU16 buf.length with
    | none => rw [ht] at h; simp at h
    | some prev =>
      have hprev : prev = buf.length := by
        rw [tryIntoU16] at ht
        by_cases hc : buf.length ≤ U16_MAX
        · rw [if_pos hc] at ht; exact (Option.some.inj ht).symm
        · rw [if_neg hc] at ht; simp at ht
      rw [ht] at h
      rw [← Option.some.inj h, hprev]

theorem C7_repaint_sequences_witness :
    c7AddRes.2 = claimedRepaint 0 c7AddRes.1.remote_buffer :=
  C7_repaint_sequences.1 ⟨⟨[], 0⟩, []⟩ "f" c7AddRes (by decide)
